import Mathlib

/-!
Shallow embedding of `src/lab4.py`, a medical-visit record keeper:
a base record class `MedicalRecord`, a subclass `EmergencyRecord`,
a collection class `MedicalRecordsCollection` with sort/filter/query
operations and CSV load/save, and the theorems checking the
specification's claims about them.

Modelling conventions:
* Python `int` is `Int` (arbitrary precision in both).
* The two record classes become a two-constructor inductive `Record`;
  `isinstance(r, EmergencyRecord)` becomes `Record.isEmergency`.
* A CSV file is modelled at the level `csv.DictReader` / `csv.DictWriter`
  present it to the program: a list of rows, each row giving for each of
  the seven header columns the cell string when the column is present
  (`Option String`).  `csv.DictWriter` converts every cell with `str`,
  so the writer side stores `toString` images.
* Exceptions caught at the file boundary become `Option` / explicit
  result pairs; the console diagnostics become small message inductives.
* The embedding is pure, so "the original collection is unchanged" holds
  by construction for every operation returning a new collection.
-/

namespace Lab4

/-- The fields shared by `MedicalRecord` and `EmergencyRecord`
(`id`, `patient_name`, `doctor_name`, `reason`, `duration`, `date`). -/
structure RecordData where
  id : Int
  patient_name : String
  doctor_name : String
  reason : String
  duration : Int
  date : String
deriving DecidableEq

/-- A record of the collection: either a plain `MedicalRecord` or an
`EmergencyRecord` carrying an additional integer urgency. -/
inductive Record where
  | base (d : RecordData)
  | emergency (d : RecordData) (urgency : Int)
deriving DecidableEq

/-- The shared-field part of a record. -/
def Record.data : Record → RecordData
  | .base d => d
  | .emergency d _ => d

def Record.id (r : Record) : Int := r.data.id

def Record.patient_name (r : Record) : String := r.data.patient_name

def Record.doctor_name (r : Record) : String := r.data.doctor_name

def Record.reason (r : Record) : String := r.data.reason

def Record.duration (r : Record) : Int := r.data.duration

def Record.date (r : Record) : String := r.data.date

/-- `isinstance(record, EmergencyRecord)`. -/
def Record.isEmergency : Record → Bool
  | .base _ => false
  | .emergency _ _ => true

/-- `getattr(record, 'urgency', 0)` as used by `save_to_csv`. -/
def Record.urgencyOrZero : Record → Int
  | .base _ => 0
  | .emergency _ u => u

/-- `EmergencyRecord.URGENCY_LEVELS`: the dict
`{1: "критическая", 2: "высокая", 3: "средняя"}` as a lookup. -/
def URGENCY_LEVELS (u : Int) : Option String :=
  if u = 1 then some "критическая"
  else if u = 2 then some "высокая"
  else if u = 3 then some "средняя"
  else none

/-- The label printed by `EmergencyRecord.__str__`:
`URGENCY_LEVELS.get(self.urgency, "неизвестная")`. -/
def urgencyLabel (u : Int) : String :=
  (URGENCY_LEVELS u).getD "неизвестная"

/-- `MedicalRecordsCollection`: a wrapper around the ordered list
`self._records`. -/
structure MedicalRecordsCollection where
  records : List Record
deriving DecidableEq

namespace MedicalRecordsCollection

/-- `__len__`. -/
def len (c : MedicalRecordsCollection) : Nat := c.records.length

/-- `__getitem__(index)`: Python list indexing with an `int` index.
A negative index counts from the end; an index out of range raises
`IndexError`, modelled as `none`. -/
def getItem (c : MedicalRecordsCollection) (index : Int) : Option Record :=
  let n : Int := c.records.length
  let j : Int := if index < 0 then index + n else index
  if 0 ≤ j ∧ j < n then c.records[j.toNat]? else none

/-- `add(record)`: appends to `self._records`. -/
def add (c : MedicalRecordsCollection) (record : Record) : MedicalRecordsCollection :=
  ⟨c.records ++ [record]⟩

end MedicalRecordsCollection

/-- The key order used by `sort_by_patient_name` via
`sorted(self._records, key=lambda r: r.patient_name)`. -/
def nameLE (a b : Record) : Bool := a.patient_name ≤ b.patient_name

/-- The key order used by `sort_by_duration` via
`sorted(self._records, key=lambda r: r.duration)`. -/
def durationLE (a b : Record) : Bool := a.duration ≤ b.duration

namespace MedicalRecordsCollection

/-- `sort_by_patient_name()`: `sorted` is a stable merge sort, modelled
by `List.mergeSort`; a new collection is returned. -/
def sort_by_patient_name (c : MedicalRecordsCollection) : MedicalRecordsCollection :=
  ⟨c.records.mergeSort nameLE⟩

/-- `sort_by_duration()`: `sorted` is a stable merge sort, modelled by
`List.mergeSort`; a new collection is returned. -/
def sort_by_duration (c : MedicalRecordsCollection) : MedicalRecordsCollection :=
  ⟨c.records.mergeSort durationLE⟩

/-- `filter_by_duration(min_duration)`:
`[r for r in self._records if r.duration > min_duration]`. -/
def filter_by_duration (c : MedicalRecordsCollection) (min_duration : Int) :
    MedicalRecordsCollection :=
  ⟨c.records.filter (fun r => min_duration < r.duration)⟩

/-- `get_emergency_records()`: the generator yields, in collection
order, the records that are `EmergencyRecord` instances; the sequence
it produces is this list. -/
def get_emergency_records (c : MedicalRecordsCollection) : List Record :=
  c.records.filter Record.isEmergency

/-- `get_records_by_doctor(doctor_name)`: the generator yields, in
collection order, the records whose `doctor_name` equals the argument;
the sequence it produces is this list. -/
def get_records_by_doctor (c : MedicalRecordsCollection) (doctor_name : String) :
    List Record :=
  c.records.filter (fun r => r.doctor_name = doctor_name)

end MedicalRecordsCollection

/-! ### Python `int(...)` on strings

`load_from_csv` converts cells with `int(row[...])`.  `int` on a string
strips surrounding whitespace and accepts an optional sign followed by
a non-empty run of decimal digits, raising `ValueError` otherwise
(modelled on the plain base-10 grammar; Python's additional underscore
separators and non-ASCII digit forms are outside the inputs this
program produces or that the claims exercise). -/

/-- Value of a decimal digit character. -/
def digitVal (c : Char) : Nat := c.toNat - 48

/-- Value of a big-endian list of decimal digit characters. -/
def digitsVal (cs : List Char) : Nat :=
  cs.foldl (fun a c => 10 * a + digitVal c) 0

/-- A non-empty all-digit run parses to its value; anything else fails. -/
def parseDigits (cs : List Char) : Option Nat :=
  if cs ≠ [] ∧ cs.all Char.isDigit then some (digitsVal cs) else none

/-- Strip leading and trailing whitespace, as `int` does before parsing. -/
def pyStrip (cs : List Char) : List Char :=
  ((cs.dropWhile Char.isWhitespace).reverse.dropWhile Char.isWhitespace).reverse

/-- Sign handling of `int`: an optional leading `-` or `+` before the
digits. -/
def pyIntCore : List Char → Option Int
  | [] => none
  | c :: rest =>
    if c = '-' then (parseDigits rest).map (fun n => -(n : Int))
    else if c = '+' then (parseDigits rest).map (fun n => (n : Int))
    else (parseDigits (c :: rest)).map (fun n => (n : Int))

/-- `int(s)` for a string `s`: `some` the value, or `none` for the
`ValueError` raised on a malformed literal. -/
def pyInt? (s : String) : Option Int :=
  pyIntCore (pyStrip s.data)

/-! ### CSV persistence

A file is a list of rows; `none` in `load_from_csv`'s argument models a
path with no file behind it (`FileNotFoundError`). -/

/-- One data row of the CSV file as `csv.DictReader` presents it: for
each column of the header `id,patient_name,doctor_name,reason,duration,
date,urgency`, the cell string when that column is present. -/
structure CsvRow where
  id : Option String
  patient_name : Option String
  doctor_name : Option String
  reason : Option String
  duration : Option String
  date : Option String
  urgency : Option String
deriving DecidableEq

/-- The rows of a CSV file (the header is implicit in `CsvRow`). -/
abbrev CsvFile := List CsvRow

/-- `date or datetime.date.today().isoformat()` in
`MedicalRecord.__init__`: `None` and the empty string are falsy, so
both are replaced by today's date (`today` is a parameter of the pure
model). -/
def orToday (today : String) : Option String → String
  | none => today
  | some s => if s = "" then today else s

/-- The body of the `load_from_csv` loop for one row: `int(row['id'])`,
`int(row['duration'])`, `int(row.get('urgency', 0))`, the required text
fields `row['patient_name']`, `row['doctor_name']`, `row['reason']`
(`KeyError` when absent), and the choice of record class by
`urgency > 0`.  `none` models any exception thrown for this row. -/
def parseRow (today : String) (row : CsvRow) : Option Record := do
  let i ← pyInt? (← row.id)
  let dur ← pyInt? (← row.duration)
  let urg ← match row.urgency with
    | none => pure (0 : Int)
    | some s => pyInt? s
  let pn ← row.patient_name
  let dn ← row.doctor_name
  let rs ← row.reason
  let d : RecordData :=
    { id := i, patient_name := pn, doctor_name := dn, reason := rs,
      duration := dur, date := orToday today row.date }
  if urg > 0 then pure (Record.emergency d urg) else pure (Record.base d)

/-- The `for row in reader` loop of `load_from_csv`: records are added
to the collection one row at a time; the first exception stops the loop
(`true` in the result means an exception was caught), and the records
added before it are kept. -/
def loadRows (today : String) : List CsvRow → List Record × Bool
  | [] => ([], false)
  | row :: rest =>
    match parseRow today row with
    | none => ([], true)
    | some r =>
      let p := loadRows today rest
      (r :: p.1, p.2)

/-- The console messages `load_from_csv` can print. -/
inductive LoadMsg where
  | loaded (n : Nat)
  | notFound
  | loadError
deriving DecidableEq

/-- `MedicalRecordsCollection.load_from_csv(filename)`: a missing file
yields the empty collection and the not-found message; otherwise the
rows are processed in order, an exception aborts the loop with an error
message, and the success message reports the number of loaded records. -/
def load_from_csv (today : String) : Option CsvFile → MedicalRecordsCollection × LoadMsg
  | none => (⟨[]⟩, LoadMsg.notFound)
  | some rows =>
    let p := loadRows today rows
    (⟨p.1⟩, if p.2 then LoadMsg.loadError else LoadMsg.loaded p.1.length)

/-- The row `save_to_csv` writes for one record: `csv.DictWriter`
stringifies every value, and `urgency` is `getattr(record, 'urgency', 0)`. -/
def recordToRow (r : Record) : CsvRow :=
  { id := some (toString r.id),
    patient_name := some r.patient_name,
    doctor_name := some r.doctor_name,
    reason := some r.reason,
    duration := some (toString r.duration),
    date := some r.date,
    urgency := some (toString r.urgencyOrZero) }

/-- The console messages `save_to_csv` can print. -/
inductive SaveMsg where
  | noData
  | saved (n : Nat)
deriving DecidableEq

/-- `MedicalRecordsCollection.save_to_csv(collection, filename)`: an
empty collection (falsy via `__len__`) is refused before the file is
opened, leaving the existing file state untouched; otherwise the file
is replaced by one row per record.  The first component is the file
state after the call. -/
def save_to_csv (c : MedicalRecordsCollection) (existing : Option CsvFile) :
    Option CsvFile × SaveMsg :=
  if c.records.isEmpty then (existing, SaveMsg.noData)
  else (some (c.records.map recordToRow), SaveMsg.saved c.records.length)

/-! ### Correctness of decimal printing against `pyInt?`

`save_to_csv` stores integers with `str` (Lean: `toString`, that is
`Int.repr` over `Nat.toDigits`), and `load_from_csv` parses them back
with `int` (`pyInt?`).  We prove the round trip, going through a
fuel-free reference implementation `decDigits` of `Nat.toDigits 10`. -/

/-- Big-endian decimal digit characters of a natural number. -/
def decDigits (n : Nat) : List Char :=
  if h : n < 10 then [Nat.digitChar n]
  else decDigits (n / 10) ++ [Nat.digitChar (n % 10)]
decreasing_by exact Nat.div_lt_self (by omega) (by omega)

theorem decDigits_ne_nil (n : Nat) : decDigits n ≠ [] := by
  rw [decDigits]
  by_cases h : n < 10 <;> simp [h]

theorem digitVal_digitChar (k : Nat) (h : k < 10) :
    digitVal (Nat.digitChar k) = k := by
  interval_cases k <;> rfl

theorem isDigit_digitChar (k : Nat) (h : k < 10) :
    (Nat.digitChar k).isDigit = true := by
  interval_cases k <;> rfl

theorem mem_decDigits_isDigit (n : Nat) :
    ∀ c ∈ decDigits n, c.isDigit = true := by
  induction n using Nat.strong_induction_on with
  | _ n ih =>
    rw [decDigits]
    by_cases h : n < 10
    · simpa [h] using isDigit_digitChar n h
    · simp only [h, dite_false, List.mem_append, List.mem_singleton]
      rintro c (hc | rfl)
      · exact ih (n / 10) (Nat.div_lt_self (by omega) (by omega)) c hc
      · exact isDigit_digitChar _ (Nat.mod_lt _ (by omega))

theorem digitsVal_append_singleton (cs : List Char) (c : Char) :
    digitsVal (cs ++ [c]) = 10 * digitsVal cs + digitVal c := by
  simp [digitsVal, List.foldl_append]

theorem digitsVal_decDigits (n : Nat) : digitsVal (decDigits n) = n := by
  induction n using Nat.strong_induction_on with
  | _ n ih =>
    rw [decDigits]
    by_cases h : n < 10
    · simp [h, digitsVal, digitVal_digitChar n h]
    · rw [dif_neg h, digitsVal_append_singleton,
        ih (n / 10) (Nat.div_lt_self (by omega) (by omega)),
        digitVal_digitChar _ (Nat.mod_lt _ (by omega))]
      omega

theorem toDigitsCore_succ (fuel n : Nat) (acc : List Char) :
    Nat.toDigitsCore 10 (fuel + 1) n acc =
      if n / 10 = 0 then Nat.digitChar (n % 10) :: acc
      else Nat.toDigitsCore 10 fuel (n / 10) (Nat.digitChar (n % 10) :: acc) := rfl

theorem toDigitsCore_eq_decDigits :
    ∀ (f n : Nat) (acc : List Char), n < 10 ^ (f + 1) →
      Nat.toDigitsCore 10 (f + 1) n acc = decDigits n ++ acc := by
  intro f
  induction f with
  | zero =>
    intro n acc h
    have hn : n < 10 := by simpa using h
    have h0 : n / 10 = 0 := Nat.div_eq_of_lt hn
    simp [Nat.toDigitsCore, h0, decDigits, hn, Nat.mod_eq_of_lt hn]
  | succ f ih =>
    intro n acc h
    by_cases hn : n < 10
    · have h0 : n / 10 = 0 := Nat.div_eq_of_lt hn
      simp [Nat.toDigitsCore, h0, decDigits, hn, Nat.mod_eq_of_lt hn]
    · have h0 : ¬ n / 10 = 0 := by omega
      have hdiv : n / 10 < 10 ^ (f + 1) := by
        apply Nat.div_lt_of_lt_mul
        have hpow : (10 : Nat) ^ (f + 1 + 1) = 10 * 10 ^ (f + 1) := by ring
        omega
      rw [toDigitsCore_succ, if_neg h0,
        ih (n / 10) (Nat.digitChar (n % 10) :: acc) hdiv]
      conv_rhs => rw [decDigits, dif_neg hn]
      simp [List.append_assoc]

theorem toDigits_eq_decDigits (n : Nat) : Nat.toDigits 10 n = decDigits n := by
  have h : n < 10 ^ (n + 1) :=
    lt_of_lt_of_le (Nat.lt_pow_self (by norm_num) n)
      (Nat.pow_le_pow_right (by norm_num) (Nat.le_succ n))
  simpa [Nat.toDigits] using toDigitsCore_eq_decDigits n n [] h

theorem data_repr (n : Nat) : (Nat.repr n).data = decDigits n := by
  show ((Nat.toDigits 10 n).asString).data = decDigits n
  rw [toDigits_eq_decDigits]
  rfl

theorem toString_intOfNat (m : Nat) : toString (Int.ofNat m) = Nat.repr m := rfl

theorem toString_intNegSucc (m : Nat) :
    toString (Int.negSucc m) = "-" ++ Nat.repr (m + 1) := rfl

theorem dropWhile_eq_self_of_all (p : Char → Bool) (cs : List Char)
    (h : ∀ c ∈ cs, p c = false) : cs.dropWhile p = cs := by
  cases cs with
  | nil => rfl
  | cons a t => simp [List.dropWhile_cons, h a (List.mem_cons_self a t)]

theorem pyStrip_eq_self (cs : List Char) (h : ∀ c ∈ cs, c.isWhitespace = false) :
    pyStrip cs = cs := by
  unfold pyStrip
  rw [dropWhile_eq_self_of_all _ _ h,
    dropWhile_eq_self_of_all _ _ (fun c hc => h c (List.mem_reverse.mp hc)),
    List.reverse_reverse]

theorem isWhitespace_eq_false_of_isDigit (c : Char) (h : c.isDigit = true) :
    c.isWhitespace = false := by
  rcases Bool.eq_false_or_eq_true c.isWhitespace with hw | hw
  · exfalso
    have hc : c = ' ' ∨ c = '\t' ∨ c = '\r' ∨ c = '\n' := by
      have := hw
      simp only [Char.isWhitespace, Bool.or_eq_true, decide_eq_true_eq] at this
      tauto
    rcases hc with rfl | rfl | rfl | rfl <;> exact absurd h (by decide)
  · exact hw

theorem ne_sign_of_isDigit (c : Char) (h : c.isDigit = true) :
    c ≠ '-' ∧ c ≠ '+' := by
  constructor <;> rintro rfl <;> exact absurd h (by decide)

theorem parseDigits_of_all (cs : List Char) (h1 : cs ≠ [])
    (h2 : ∀ c ∈ cs, c.isDigit = true) : parseDigits cs = some (digitsVal cs) := by
  rw [parseDigits, if_pos ⟨h1, List.all_eq_true.mpr h2⟩]

theorem pyIntCore_digits (cs : List Char) (h1 : cs ≠ [])
    (h2 : ∀ c ∈ cs, c.isDigit = true) :
    pyIntCore cs = some ((digitsVal cs : Nat) : Int) := by
  cases cs with
  | nil => exact absurd rfl h1
  | cons a t =>
    obtain ⟨hm, hp⟩ := ne_sign_of_isDigit a (h2 a (List.mem_cons_self a t))
    show (if a = '-' then _ else if a = '+' then _ else _) = _
    rw [if_neg hm, if_neg hp, parseDigits_of_all _ (by simp) h2]
    rfl

theorem pyIntCore_neg_digits (cs : List Char) (h1 : cs ≠ [])
    (h2 : ∀ c ∈ cs, c.isDigit = true) :
    pyIntCore ('-' :: cs) = some (-(digitsVal cs : Int)) := by
  simp only [pyIntCore, if_pos rfl]
  rw [parseDigits_of_all _ h1 h2]
  rfl

/-- `int(str(i)) == i`: parsing the decimal string written by
`save_to_csv` recovers the integer. -/
theorem pyInt_toString (i : Int) : pyInt? (toString i) = some i := by
  cases i with
  | ofNat m =>
    have hd : (toString (Int.ofNat m)).data = decDigits m := by
      rw [toString_intOfNat, data_repr]
    rw [pyInt?, hd,
      pyStrip_eq_self _
        (fun c hc => isWhitespace_eq_false_of_isDigit c (mem_decDigits_isDigit m c hc)),
      pyIntCore_digits _ (decDigits_ne_nil m) (mem_decDigits_isDigit m),
      digitsVal_decDigits]
    rfl
  | negSucc m =>
    have hd : (toString (Int.negSucc m)).data = '-' :: decDigits (m + 1) := by
      rw [toString_intNegSucc, String.data_append, data_repr]
      rfl
    have hws : ∀ c ∈ '-' :: decDigits (m + 1), c.isWhitespace = false := by
      intro c hc
      rcases List.mem_cons.mp hc with rfl | hc
      · decide
      · exact isWhitespace_eq_false_of_isDigit c (mem_decDigits_isDigit (m + 1) c hc)
    rw [pyInt?, hd, pyStrip_eq_self _ hws,
      pyIntCore_neg_digits _ (decDigits_ne_nil (m + 1)) (mem_decDigits_isDigit (m + 1)),
      digitsVal_decDigits]
    simp only [Option.some.injEq, Int.negSucc_eq]
    push_cast
    ring

/-- What one record becomes after a save/load round trip: an empty date
falls back to today, and a non-positive urgency demotes an emergency
record to a base record. -/
def reload (today : String) (r : Record) : Record :=
  match r with
  | .base d => .base { d with date := orToday today (some d.date) }
  | .emergency d u =>
    if u > 0 then .emergency { d with date := orToday today (some d.date) } u
    else .base { d with date := orToday today (some d.date) }

/-- Parsing the row written for a record always succeeds, producing
`reload` of the record. -/
theorem parseRow_recordToRow (today : String) (r : Record) :
    parseRow today (recordToRow r) = some (reload today r) := by
  cases r with
  | base d =>
    simp [parseRow, recordToRow, reload, pyInt_toString,
      Record.id, Record.duration, Record.patient_name, Record.doctor_name,
      Record.reason, Record.date, Record.data, Record.urgencyOrZero]
  | emergency d u =>
    by_cases hu : u > 0 <;>
      simp [parseRow, recordToRow, reload, pyInt_toString, hu,
        Record.id, Record.duration, Record.patient_name, Record.doctor_name,
        Record.reason, Record.date, Record.data, Record.urgencyOrZero]

/-- The load loop over the rows written by `save_to_csv` never hits an
exception and reproduces each record up to `reload`. -/
theorem loadRows_map_recordToRow (today : String) (l : List Record) :
    loadRows today (l.map recordToRow) = (l.map (reload today), false) := by
  induction l with
  | nil => rfl
  | cons r t ih => simp [loadRows, parseRow_recordToRow, ih]

/-- A record untouched by `reload`: its date is non-empty and, when it
is an emergency record, its urgency is at least 1. -/
theorem reload_eq_self (today : String) (r : Record)
    (hu : r.isEmergency = true → 1 ≤ r.urgencyOrZero)
    (hd : r.date ≠ "") : reload today r = r := by
  cases r with
  | base d =>
    simp only [Record.date, Record.data] at hd
    simp [reload, orToday, hd]
  | emergency d u =>
    have h1 : 1 ≤ u := hu rfl
    simp only [Record.date, Record.data] at hd
    simp [reload, orToday, hd, show u > 0 by omega]

/-- The load loop keeps the records parsed before the first bad row and
stops there with the exception flag set. -/
theorem loadRows_append_bad (today : String) (pre : List CsvRow) (bad : CsvRow)
    (post : List CsvRow) (hpre : ∀ row ∈ pre, (parseRow today row).isSome = true)
    (hbad : parseRow today bad = none) :
    loadRows today (pre ++ bad :: post) = (pre.filterMap (parseRow today), true) := by
  induction pre with
  | nil => simp [loadRows, hbad]
  | cons row t ih =>
    obtain ⟨r, hr⟩ := Option.isSome_iff_exists.mp (hpre row (List.mem_cons_self row t))
    simp [loadRows, hr, ih (fun x hx => hpre x (List.mem_cons_of_mem row hx)),
      List.filterMap_cons]

/-! ### The claims -/

/-- Claim C5: calling `load_from_csv` on a nonexistent file returns an
empty collection (length 0) together with the not-found diagnostic
message, rather than raising an error. -/
theorem missing_file_empty_load (today : String) :
    load_from_csv today none = (⟨[]⟩, LoadMsg.notFound) ∧
    (load_from_csv today none).1.len = 0 :=
  ⟨rfl, rfl⟩

/-- Claim C6: `save_to_csv` on an empty collection refuses to write: it
reports the no-data diagnostic and returns with the file state, whether
the file exists or not, unchanged. -/
theorem empty_save_noop (c : MedicalRecordsCollection) (existing : Option CsvFile)
    (h : c.len = 0) : save_to_csv c existing = (existing, SaveMsg.noData) := by
  obtain ⟨l⟩ := c
  cases l with
  | nil => rfl
  | cons a t => simp [MedicalRecordsCollection.len] at h

theorem empty_save_noop_witness :
    (MedicalRecordsCollection.len ⟨[]⟩ = 0) ∧
    save_to_csv ⟨[]⟩
        (some [⟨some "9", some "P", some "D", some "R", some "5",
          some "2024-01-01", some "0"⟩]) =
      (some [⟨some "9", some "P", some "D", some "R", some "5",
        some "2024-01-01", some "0"⟩], SaveMsg.noData) :=
  ⟨by decide, empty_save_noop ⟨[]⟩ _ (by decide)⟩

/-- Claim C7: the urgency label displayed for an emergency record is a
function of the urgency integer alone: 1 maps to the critical label, 2
to the high label, 3 to the medium label, and every other integer to
the unknown label. -/
theorem urgency_label_map (u : Int) (h : u ≠ 1 ∧ u ≠ 2 ∧ u ≠ 3) :
    urgencyLabel 1 = "критическая" ∧ urgencyLabel 2 = "высокая" ∧
    urgencyLabel 3 = "средняя" ∧ urgencyLabel u = "неизвестная" := by
  refine ⟨rfl, rfl, rfl, ?_⟩
  simp [urgencyLabel, URGENCY_LEVELS, h.1, h.2.1, h.2.2]

theorem urgency_label_map_witness :
    ((-7 : Int) ≠ 1 ∧ (-7 : Int) ≠ 2 ∧ (-7 : Int) ≠ 3) ∧
    (urgencyLabel 1 = "критическая" ∧ urgencyLabel 2 = "высокая" ∧
     urgencyLabel 3 = "средняя" ∧ urgencyLabel (-7) = "неизвестная") :=
  ⟨by decide, urgency_label_map (-7) (by decide)⟩

/-- Collection used by the indexing witness. -/
def wc10 : MedicalRecordsCollection :=
  ⟨[Record.base ⟨1, "A", "D1", "R1", 15, "2024-01-01"⟩,
    Record.base ⟨2, "B", "D2", "R2", 30, "2024-01-02"⟩]⟩

/-- Claim C10: for every non-negative index `i`, `__getitem__` returns
the record at position `i` when `i` is below the collection length, and
fails with an out-of-range error (none) when `i` is at or beyond the
length. -/
theorem getitem_bounds (c : MedicalRecordsCollection) (i : Int) (h0 : 0 ≤ i) :
    (i < (c.len : Int) →
      c.getItem i = c.records[i.toNat]? ∧ (c.records[i.toNat]?).isSome = true) ∧
    ((c.len : Int) ≤ i → c.getItem i = none) := by
  have hlen : (c.len : Int) = (c.records.length : Int) := rfl
  have hnot : ¬ i < 0 := by omega
  constructor
  · intro hi
    refine ⟨?_, ?_⟩
    · simp only [MedicalRecordsCollection.getItem, if_neg hnot]
      rw [if_pos ⟨h0, by omega⟩]
    · rw [List.getElem?_eq_getElem (by omega), Option.isSome_some]
  · intro hi
    simp only [MedicalRecordsCollection.getItem, if_neg hnot]
    rw [if_neg]
    omega

theorem getitem_bounds_witness :
    ((1 : Int) < (wc10.len : Int) →
      wc10.getItem 1 = wc10.records[(1 : Int).toNat]? ∧
      (wc10.records[(1 : Int).toNat]?).isSome = true) ∧
    ((wc10.len : Int) ≤ 1 → wc10.getItem 1 = none) :=
  getitem_bounds wc10 1 (by decide)

/-- Collection refuting claim C1 as stated: an emergency record whose
urgency is not positive. -/
def cex1 : MedicalRecordsCollection :=
  ⟨[Record.emergency ⟨1, "P", "D", "R", 15, "2024-01-01"⟩ (-1)]⟩

/-- Collection refuting the date part of claim C1 as stated: a record
whose date is the empty string. -/
def cex1b : MedicalRecordsCollection :=
  ⟨[Record.base ⟨1, "P", "D", "R", 15, ""⟩]⟩

/-- Claim C1, counterexample to the statement as given: the non-empty
collection `cex1` holds an emergency record (urgency -1), yet saving
and reloading does not reproduce its records — the reloaded record is a
base record, so the emergency record's urgency field is not preserved;
and the non-empty collection `cex1b` holds a record whose date is the
empty string, which reloads with today's date instead, so its date
field is not preserved either. -/
theorem save_load_not_identity :
    ((load_from_csv "2024-06-01" (save_to_csv cex1 none).1).1 ≠ cex1 ∧
     ((load_from_csv "2024-06-01" (save_to_csv cex1 none).1).1.records.map
       Record.isEmergency) = [false] ∧
     cex1.records.map Record.isEmergency = [true]) ∧
    ((load_from_csv "2024-06-01" (save_to_csv cex1b none).1).1 ≠ cex1b ∧
     ((load_from_csv "2024-06-01" (save_to_csv cex1b none).1).1.records.map
       Record.date) = ["2024-06-01"]) := by decide

/-- Claim C1 (amended): for every non-empty collection whose emergency
records all have urgency at least 1 (and whose dates are non-empty, as
every date this program creates is), saving to CSV and reloading yields
a collection of the same length with identical field values: in fact
the very same collection, with the success message counting its
records.  In particular a record saved with urgency ≥ 1 reloads as an
emergency record and one saved with urgency 0 reloads as a base
record. -/
theorem save_load_roundtrip (c : MedicalRecordsCollection) (today : String)
    (hne : c.records ≠ [])
    (hu : ∀ r ∈ c.records, r.isEmergency = true → 1 ≤ r.urgencyOrZero)
    (hd : ∀ r ∈ c.records, r.date ≠ "") :
    load_from_csv today (save_to_csv c none).1 = (c, LoadMsg.loaded c.len) := by
  have hsave : (save_to_csv c none).1 = some (c.records.map recordToRow) := by
    simp [save_to_csv, List.isEmpty_iff, hne]
  rw [hsave]
  simp only [load_from_csv]
  rw [loadRows_map_recordToRow]
  have hmap : c.records.map (reload today) = c.records := by
    simpa using List.map_congr_left
      (fun r (hr : r ∈ c.records) => reload_eq_self today r (hu r hr) (hd r hr))
  simp [hmap]
  rfl

/-- Collection used by the round-trip witness. -/
def w1 : MedicalRecordsCollection :=
  ⟨[Record.base ⟨1, "P", "D", "R", 15, "2024-01-01"⟩,
    Record.emergency ⟨2, "Q", "E", "S", 30, "2024-01-02"⟩ 2]⟩

theorem save_load_roundtrip_witness :
    (w1.records ≠ [] ∧
      (∀ r ∈ w1.records, r.isEmergency = true → 1 ≤ r.urgencyOrZero) ∧
      (∀ r ∈ w1.records, r.date ≠ "")) ∧
    load_from_csv "2024-06-01" (save_to_csv w1 none).1 = (w1, LoadMsg.loaded w1.len) :=
  ⟨⟨by decide, by decide, by decide⟩,
    save_load_roundtrip w1 "2024-06-01" (by decide) (by decide) (by decide)⟩

/-- Claim C9: an emergency record whose urgency is 0 or negative does
not survive the CSV round trip as an emergency record: the reloaded
collection has the same length, but at that row it holds a base record
with the same shared fields (the urgency value is lost), because
`load_from_csv` creates an `EmergencyRecord` only when the parsed
urgency is strictly positive. -/
theorem emergency_lost_roundtrip (c : MedicalRecordsCollection) (today : String)
    (k : Nat) (d : RecordData) (u : Int)
    (hk : c.records[k]? = some (Record.emergency d u)) (hu : u ≤ 0) :
    (load_from_csv today (save_to_csv c none).1).1.records.length = c.records.length ∧
    (load_from_csv today (save_to_csv c none).1).1.records[k]? =
      some (Record.base { d with date := orToday today (some d.date) }) := by
  have hne : c.records ≠ [] := by
    intro h
    rw [h] at hk
    simp at hk
  have hsave : (save_to_csv c none).1 = some (c.records.map recordToRow) := by
    simp [save_to_csv, List.isEmpty_iff, hne]
  rw [hsave]
  simp only [load_from_csv]
  rw [loadRows_map_recordToRow]
  constructor
  · simp
  · rw [List.getElem?_map, hk]
    simp [reload, show ¬ u > 0 by omega]

/-- Collection used by the urgency-loss witness. -/
def w9 : MedicalRecordsCollection :=
  ⟨[Record.emergency ⟨3, "P", "D", "R", 20, "2024-01-03"⟩ 0]⟩

theorem emergency_lost_roundtrip_witness :
    (w9.records[0]? = some (Record.emergency ⟨3, "P", "D", "R", 20, "2024-01-03"⟩ 0) ∧
      (0 : Int) ≤ 0) ∧
    ((load_from_csv "2024-06-01" (save_to_csv w9 none).1).1.records.length =
        w9.records.length ∧
      (load_from_csv "2024-06-01" (save_to_csv w9 none).1).1.records[0]? =
        some (Record.base { (⟨3, "P", "D", "R", 20, "2024-01-03"⟩ : RecordData) with
          date := orToday "2024-06-01" (some "2024-01-03") })) :=
  ⟨⟨by decide, by decide⟩,
    emergency_lost_roundtrip w9 "2024-06-01" 0 ⟨3, "P", "D", "R", 20, "2024-01-03"⟩ 0
      (by decide) (by decide)⟩

/-- A well-formed CSV row. -/
def goodRow : CsvRow :=
  { id := some "1", patient_name := some "P", doctor_name := some "D",
    reason := some "R", duration := some "10", date := some "2024-01-01",
    urgency := some "0" }

/-- A malformed CSV row: its duration cell is not an integer literal. -/
def badRow : CsvRow :=
  { goodRow with duration := some "abc" }

/-- Claim C2, counterexample to the statement as given: loading a file
whose second row is malformed prints the error diagnostic, but the
returned collection is not empty — the record parsed from the
well-formed first row is kept. -/
theorem load_partial_kept :
    (load_from_csv "2024-06-01" (some [goodRow, badRow])).2 = LoadMsg.loadError ∧
    (load_from_csv "2024-06-01" (some [goodRow, badRow])).1.records.length = 1 := by
  decide

/-- Claim C2 (amended): a malformed row aborts the load at that row
with the error diagnostic — no row at or after it is loaded — but the
records parsed from the well-formed rows before it remain in the
returned collection. -/
theorem load_aborts_at_first_bad_row (today : String) (pre : List CsvRow)
    (bad : CsvRow) (post : List CsvRow)
    (hpre : ∀ row ∈ pre, (parseRow today row).isSome = true)
    (hbad : parseRow today bad = none) :
    load_from_csv today (some (pre ++ bad :: post)) =
      (⟨pre.filterMap (parseRow today)⟩, LoadMsg.loadError) := by
  simp only [load_from_csv]
  rw [loadRows_append_bad today pre bad post hpre hbad]
  simp

theorem load_aborts_witness :
    ((∀ row ∈ [goodRow], (parseRow "2024-06-01" row).isSome = true) ∧
      parseRow "2024-06-01" badRow = none) ∧
    load_from_csv "2024-06-01" (some ([goodRow] ++ badRow :: [])) =
      (⟨[goodRow].filterMap (parseRow "2024-06-01")⟩, LoadMsg.loadError) :=
  ⟨⟨by decide, by decide⟩,
    load_aborts_at_first_bad_row "2024-06-01" [goodRow] badRow [] (by decide) (by decide)⟩

/-- Claim C3: `filter_by_duration(N)` returns a new collection holding
exactly the records with duration strictly greater than `N`, in the
original relative order (a sublist, with multiplicities preserved); the
embedding is pure, so the original collection is unchanged. -/
theorem filter_by_duration_spec (c : MedicalRecordsCollection) (N : Int) :
    (c.filter_by_duration N).records.Sublist c.records ∧
    (∀ r : Record, r ∈ (c.filter_by_duration N).records ↔
      r ∈ c.records ∧ N < r.duration) ∧
    (∀ r : Record, (c.filter_by_duration N).records.count r =
      if N < r.duration then c.records.count r else 0) := by
  refine ⟨List.filter_sublist _, ?_, ?_⟩
  · intro r
    simp [MedicalRecordsCollection.filter_by_duration, List.mem_filter]
  · intro r
    by_cases h : N < r.duration
    · rw [if_pos h]
      exact List.count_filter (by simpa using h)
    · rw [if_neg h]
      apply List.count_eq_zero.mpr
      intro hr
      exact h (by simpa using (List.mem_filter.mp hr).2)

theorem nameLE_trans (a b c' : Record) (h1 : nameLE a b = true)
    (h2 : nameLE b c' = true) : nameLE a c' = true := by
  simp only [nameLE, decide_eq_true_eq] at h1 h2 ⊢
  exact le_trans h1 h2

theorem nameLE_total (a b : Record) : (nameLE a b || nameLE b a) = true := by
  simp only [nameLE, Bool.or_eq_true, decide_eq_true_eq]
  exact le_total _ _

theorem durationLE_trans (a b c' : Record) (h1 : durationLE a b = true)
    (h2 : durationLE b c' = true) : durationLE a c' = true := by
  simp only [durationLE, decide_eq_true_eq] at h1 h2 ⊢
  exact le_trans h1 h2

theorem durationLE_total (a b : Record) : (durationLE a b || durationLE b a) = true := by
  simp only [durationLE, Bool.or_eq_true, decide_eq_true_eq]
  exact le_total _ _

/-- Stability of `mergeSort` in filter form: the elements satisfying
`p` (for instance, those sharing one key value) appear in the sorted
output exactly as they appear in the input. -/
theorem filter_mergeSort_eq (le : Record → Record → Bool)
    (htrans : ∀ a b c', le a b = true → le b c' = true → le a c' = true)
    (htotal : ∀ a b, (le a b || le b a) = true)
    (l : List Record) (p : Record → Bool)
    (hp : ∀ a b, p a = true → p b = true → le a b = true) :
    (l.mergeSort le).filter p = l.filter p := by
  have hperm : List.Perm ((l.mergeSort le).filter p) (l.filter p) :=
    (List.mergeSort_perm l le).filter p
  have hpair : (l.filter p).Pairwise (fun a b => le a b = true) :=
    List.pairwise_of_forall_mem_list
      (fun a ha b hb => hp a b (List.of_mem_filter ha) (List.of_mem_filter hb))
  have hsub : List.Sublist (l.filter p) (l.mergeSort le) :=
    List.sublist_mergeSort htrans htotal hpair (List.filter_sublist l)
  have hself : (l.filter p).filter p = l.filter p :=
    List.filter_eq_self.mpr (fun a ha => List.of_mem_filter ha)
  have hsub2 : List.Sublist (l.filter p) ((l.mergeSort le).filter p) := by
    have hf := hsub.filter p
    rwa [hself] at hf
  exact (hsub2.eq_of_length hperm.length_eq.symm).symm

/-- Claim C4: `sort_by_patient_name()` and `sort_by_duration()` return
a new collection that is a stable sort of the records by the key: a
permutation, ordered by the key, in which records with equal keys keep
their original relative order (stability stated as: filtering the
output by any one key value reproduces the input filtered the same
way); the embedding is pure, so the original collection is unchanged. -/
theorem sort_stable (c : MedicalRecordsCollection) :
    (List.Perm c.sort_by_patient_name.records c.records ∧
     c.sort_by_patient_name.records.Pairwise
       (fun a b => a.patient_name ≤ b.patient_name) ∧
     (∀ k : String, c.sort_by_patient_name.records.filter
         (fun r => r.patient_name = k) =
       c.records.filter (fun r => r.patient_name = k))) ∧
    (List.Perm c.sort_by_duration.records c.records ∧
     c.sort_by_duration.records.Pairwise (fun a b => a.duration ≤ b.duration) ∧
     (∀ k : Int, c.sort_by_duration.records.filter (fun r => r.duration = k) =
       c.records.filter (fun r => r.duration = k))) := by
  refine ⟨⟨List.mergeSort_perm _ _, ?_, ?_⟩, ⟨List.mergeSort_perm _ _, ?_, ?_⟩⟩
  · exact (List.sorted_mergeSort nameLE_trans nameLE_total c.records).imp
      (fun h => by simpa [nameLE] using h)
  · intro k
    exact filter_mergeSort_eq nameLE nameLE_trans nameLE_total c.records _
      (fun a b ha hb => by
        simp only [decide_eq_true_eq] at ha hb
        simp [nameLE, ha, hb])
  · exact (List.sorted_mergeSort durationLE_trans durationLE_total c.records).imp
      (fun h => by simpa [durationLE] using h)
  · intro k
    exact filter_mergeSort_eq durationLE durationLE_trans durationLE_total c.records _
      (fun a b ha hb => by
        simp only [decide_eq_true_eq] at ha hb
        simp [durationLE, ha, hb])

/-- Claim C8: `get_records_by_doctor(name)` yields exactly the records
whose doctor name equals the argument, and `get_emergency_records()`
exactly the emergency records, each in original collection order (a
sublist); re-invoking an operation re-runs the same pure scan and
produces the same sequence. -/
theorem query_generators (c : MedicalRecordsCollection) (doctor_name : String) :
    ((c.get_records_by_doctor doctor_name).Sublist c.records ∧
     (∀ r : Record, r ∈ c.get_records_by_doctor doctor_name ↔
       r ∈ c.records ∧ r.doctor_name = doctor_name) ∧
     c.get_records_by_doctor doctor_name = c.get_records_by_doctor doctor_name) ∧
    ((c.get_emergency_records).Sublist c.records ∧
     (∀ r : Record, r ∈ c.get_emergency_records ↔
       r ∈ c.records ∧ r.isEmergency = true) ∧
     c.get_emergency_records = c.get_emergency_records) := by
  refine ⟨⟨List.filter_sublist _, ?_, rfl⟩, ⟨List.filter_sublist _, ?_, rfl⟩⟩
  · intro r
    simp [MedicalRecordsCollection.get_records_by_doctor, List.mem_filter]
  · intro r
    simp [MedicalRecordsCollection.get_emergency_records, List.mem_filter]

end Lab4
